import Mathlib

/- Shallow embedding of the room-view client of the multi-llm-human-discussion
repository: the turn-order engine, the event-stream handler, the submit gate,
the configuration fallback and the typing debouncer, each translated from the
TypeScript source. -/

namespace Discussion

/-- Traveler roles, from TRAVELER_ROLES in app/types.ts. -/
def TRAVELER_ROLES : List String :=
  ["traveler_A", "traveler_B", "traveler_C", "traveler_D"]

/-- Default turn order: moderator followed by the traveler roles. -/
def DEFAULT_TURN_ORDER : List String := "moderator" :: TRAVELER_ROLES

/-- Chat message: speaker, content, local receipt time (ChatMessage in app/types.ts). -/
structure ChatMessage where
  who : String
  content : String
  ts : Nat
deriving DecidableEq, Repr

/-- Session configuration (SessionConfig in app/types.ts). -/
structure SessionConfig where
  ai_travelers : List String
  human_travelers : List String
deriving DecidableEq, Repr

/-- JavaScript string trim: drop leading and trailing whitespace characters.
Defined by structural recursion over the character list so that it evaluates
inside the kernel. -/
def jsTrim (s : String) : String :=
  String.mk
    (((s.data.dropWhile Char.isWhitespace).reverse.dropWhile
        Char.isWhitespace).reverse)

/-- JavaScript Array.indexOf: index of the first occurrence, or -1 when absent. -/
def jsIndexOf (l : List String) (x : String) : Int :=
  match l.findIdx? (fun a => a == x) with
  | some i => (i : Int)
  | none => -1

/-- Turn engine step: if the order is empty return the argument unchanged,
otherwise take the element after the given speaker cyclically, defaulting to
index 0 when the speaker is not in the order. -/
def nextSpeaker (order : List String) (after : String) : String :=
  if order.length = 0 then after
  else
    let i := jsIndexOf order after
    let nextIndex : Nat := if 0 ≤ i then (i.toNat + 1) % order.length else 0
    order.getD nextIndex ""

/-- Turn engine: moderator for an empty order, the first element of the order
for an empty log, and otherwise the successor of the last speaker of the log. -/
def guessNextSpeaker (order : List String) (messages : List ChatMessage) : String :=
  if order.length = 0 then "moderator"
  else
    match messages.getLast? with
    | none => order.getD 0 ""
    | some last => nextSpeaker order last.who

/-- JavaScript object spread update on a string-keyed boolean record: replace
the value at the first occurrence of the key, or append the key when absent. -/
def recSet : List (String × Bool) → String → Bool → List (String × Bool)
  | [], k, v => [(k, v)]
  | (k', v') :: rest, k, v =>
      if k' == k then (k, v) :: rest else (k', v') :: recSet rest k v

/-- Lookup in a string-keyed boolean record. -/
def recGet (m : List (String × Bool)) (k : String) : Option Bool :=
  (m.find? (fun kv => kv.1 == k)).map Prod.snd

/-- The client state held by the room component: session identifier, local
role, session configuration, turn order, message log, draft text, typing map
and the finished flag. The event-source handle is a connection resource and is
not part of the modelled state. -/
structure ClientState where
  sessionId : Option String
  role : Option String
  sessionConfig : Option SessionConfig
  turnOrder : List String
  msgs : List ChatMessage
  input : String
  typingMap : List (String × Bool)
  finished : Bool
deriving DecidableEq, Repr

/-- Raw stream payloads as the handler discriminates them: missing data, the
bare end marker string, a parsed message event, a parsed typing event, or
anything else (a payload on which JSON parsing throws, or whose type tag is
neither message nor typing). -/
inductive RawPayload where
  | empty : RawPayload
  | endMarker : RawPayload
  | message (who content : String) : RawPayload
  | typing (who : String) (active : Bool) : RawPayload
  | malformed : RawPayload
deriving DecidableEq, Repr

/-- The consensus sentinel string. -/
def CONSENSUS_SENTINEL : String := "【合意確定】"

/-- The stream handler: the end marker sets finished; a message event appends
to the log with the local receipt time, sets finished when the trimmed content
equals the consensus sentinel, and clears the typing flag of the speaker; a
typing event upserts the typing flag of its speaker; everything else leaves
the state unchanged (the handler catches parse exceptions). -/
def onmessage (st : ClientState) (now : Nat) (p : RawPayload) : ClientState :=
  match p with
  | .empty => st
  | .endMarker => { st with finished := true }
  | .message who content =>
      { st with
        msgs := st.msgs ++ [{ who := who, content := content, ts := now }],
        finished := if jsTrim content = CONSENSUS_SENTINEL then true else st.finished,
        typingMap := recSet st.typingMap who false }
  | .typing who active => { st with typingMap := recSet st.typingMap who active }
  | .malformed => st

/-- Fold of the stream handler over a list of timestamped payloads. -/
def runEvents (st : ClientState) (evs : List (Nat × RawPayload)) : ClientState :=
  evs.foldl (fun s e => onmessage s e.1 e.2) st

/-- JavaScript truthiness of a string: the empty string is falsy. -/
def truthyStr (s : String) : Bool := !(s == "")

/-- JavaScript truthiness of a nullable string. -/
def truthyOpt : Option String → Bool
  | none => false
  | some s => truthyStr s

/-- Human partition: the configured human travelers, or the hardcoded default
when no configuration is loaded. -/
def humanRolesOf : Option SessionConfig → List String
  | some c => c.human_travelers
  | none => ["traveler_B", "traveler_D"]

/-- Automated partition consulted by isSelectedAi: the configured ai travelers,
or the hardcoded default when no configuration is loaded. -/
def aiRolesOf : Option SessionConfig → List String
  | some c => c.ai_travelers
  | none => ["traveler_A", "traveler_C"]

/-- Whether the selected role is automated. -/
def isSelectedAi (role : Option String) (cfg : Option SessionConfig) : Bool :=
  match role with
  | none => false
  | some r => (aiRolesOf cfg).contains r

/-- Whether the computed next speaker equals the local role. -/
def isMyTurn (role : Option String) (turnOrder : List String)
    (msgs : List ChatMessage) : Bool :=
  match role with
  | none => false
  | some r => guessNextSpeaker turnOrder msgs == r

/-- The submit guard: the submit proceeds exactly when the session identifier
and the role are truthy, the trimmed draft is non-empty, it is the local
turn, the session is not finished, and the role is not automated. -/
def canSubmit (st : ClientState) : Bool :=
  truthyOpt st.sessionId && truthyOpt st.role && truthyStr (jsTrim st.input) &&
    isMyTurn st.role st.turnOrder st.msgs && !st.finished &&
    !(isSelectedAi st.role st.sessionConfig)

/-- Body of a submitted message post. -/
structure PostedInput where
  session_id : String
  who : String
  text : String
deriving DecidableEq, Repr

/-- The submit action: when the guard passes, post the trimmed draft tagged
with the session identifier and the local role, and clear the draft; otherwise
do nothing. -/
def send (st : ClientState) : ClientState × Option PostedInput :=
  if canSubmit st then
    ({ st with input := "" },
      some { session_id := st.sessionId.getD "", who := st.role.getD "",
             text := jsTrim st.input })
  else (st, none)

/-- The deterministic fallback configuration synthesized when the
configuration fetch fails. -/
def fallbackConfig : SessionConfig :=
  { ai_travelers :=
      TRAVELER_ROLES.filter (fun t => !(["traveler_B", "traveler_D"].contains t)),
    human_travelers := ["traveler_B", "traveler_D"] }

/-- Configuration loading, with the fetch outcome abstracted: a successful
fetch yields its parsed body, any failure (network error, non-success status,
parse error) yields the fallback. -/
def loadConfig : Option SessionConfig → SessionConfig
  | some data => data
  | none => fallbackConfig

/-- Initial component state, from the useState initializers. -/
def initialState (sessionId : Option String) : ClientState :=
  { sessionId := sessionId, role := none, sessionConfig := none,
    turnOrder := DEFAULT_TURN_ORDER, msgs := [], input := "",
    typingMap := [], finished := false }

/-- The speaker identity carried by a payload, when any. -/
def payloadWho : RawPayload → Option String
  | .message who _ => some who
  | .typing who _ => some who
  | _ => none

/-- Whether the identity carried by a payload, if any, lies in the order. -/
def whoInOrder (order : List String) (p : RawPayload) : Bool :=
  match payloadWho p with
  | some w => order.contains w
  | none => true

/-- Whether every key of the typing map lies in the turn order. -/
def typingKeysIn (st : ClientState) : Bool :=
  st.typingMap.all (fun kv => st.turnOrder.contains kv.1)

/-- The debounce delay in milliseconds. -/
def TYPING_DEBOUNCE_MS : Nat := 800

/-- Notifications emitted by the input-change handler of a human local role,
given the ascending times of the local edits: every edit emits an active
notification and replaces the pending timeout by one due 800 ms later; a
pending timeout fires its inactive notification at its deadline unless a
later edit clears it first. -/
def debounceRun : List Nat → List (Nat × Bool)
  | [] => []
  | [t] => [(t, true), (t + TYPING_DEBOUNCE_MS, false)]
  | t :: t2 :: rest =>
      if t + TYPING_DEBOUNCE_MS ≤ t2 then
        (t, true) :: (t + TYPING_DEBOUNCE_MS, false) :: debounceRun (t2 :: rest)
      else
        (t, true) :: debounceRun (t2 :: rest)

/-- Example base state shared by the concrete witnesses. -/
def exState : ClientState := initialState (some "s1")

/-- Example state in which the submit guard passes: traveler_B is the local
role, the last message came from traveler_A, and the draft is non-blank. -/
def exSubmittable : ClientState :=
  { sessionId := some "s5", role := some "traveler_B", sessionConfig := none,
    turnOrder := DEFAULT_TURN_ORDER,
    msgs := [{ who := "traveler_A", content := "x", ts := 0 }],
    input := " hello ", typingMap := [], finished := false }

/-- Example state identical to exSubmittable except that the draft is
whitespace only. -/
def exBlankDraft : ClientState := { exSubmittable with input := "  " }

/-- Example state whose session has finished. -/
def exFinished : ClientState := { exState with finished := true }

/- Helper lemmas about the record update and the handler. -/

theorem recGet_recSet_self (m : List (String × Bool)) (k : String) (v : Bool) :
    recGet (recSet m k v) k = some v := by
  induction m with
  | nil => simp [recSet, recGet]
  | cons kv rest ih =>
      obtain ⟨k', v'⟩ := kv
      by_cases h : k' == k
      · simp [recSet, recGet, h, List.find?]
      · simp only [recSet, h, Bool.false_eq_true, if_false]
        simpa [recGet, List.find?, h] using ih

theorem recSet_all_keys (m : List (String × Bool)) (order : List String)
    (k : String) (v : Bool)
    (hm : m.all (fun kv => order.contains kv.1) = true)
    (hk : order.contains k = true) :
    (recSet m k v).all (fun kv => order.contains kv.1) = true := by
  induction m with
  | nil =>
      simp only [recSet, List.all_cons, List.all_nil, Bool.and_true]
      exact hk
  | cons kv rest ih =>
      obtain ⟨k', v'⟩ := kv
      simp only [List.all_cons, Bool.and_eq_true] at hm
      by_cases h : k' == k
      · simp only [recSet, h, if_true, List.all_cons, Bool.and_eq_true]
        exact ⟨hk, hm.2⟩
      · simp only [recSet, h, Bool.false_eq_true, if_false, List.all_cons,
          Bool.and_eq_true]
        exact ⟨hm.1, ih hm.2⟩

theorem onmessage_turnOrder (st : ClientState) (now : Nat) (p : RawPayload) :
    (onmessage st now p).turnOrder = st.turnOrder := by
  cases p <;> rfl

theorem typingKeysIn_onmessage (st : ClientState) (now : Nat) (p : RawPayload)
    (h0 : typingKeysIn st = true) (hp : whoInOrder st.turnOrder p = true) :
    typingKeysIn (onmessage st now p) = true := by
  cases p with
  | empty => exact h0
  | endMarker => exact h0
  | malformed => exact h0
  | message who content =>
      simp only [whoInOrder, payloadWho] at hp
      exact recSet_all_keys st.typingMap st.turnOrder who false h0 hp
  | typing who active =>
      simp only [whoInOrder, payloadWho] at hp
      exact recSet_all_keys st.typingMap st.turnOrder who active h0 hp

theorem nextSpeaker_eq_find (order : List String) (h : ¬ order.length = 0)
    (a : String) :
    nextSpeaker order a =
      match order.findIdx? (fun x => x == a) with
      | some i => order.getD ((i + 1) % order.length) ""
      | none => order.getD 0 "" := by
  unfold nextSpeaker jsIndexOf
  cases hfi : order.findIdx? (fun x => x == a) with
  | none => simp [h, hfi]
  | some i => simp [h, hfi]

/-- C1: with a non-empty turn order, the next speaker for an empty log is the
first element of the order, and the next speaker for any log ending in a
message m is determined by the position of the speaker of m alone: the element
at index (i+1) mod length when that speaker occurs at index i, and the first
element when the speaker does not occur. -/
theorem next_speaker_spec (order : List String) (h : order ≠ []) :
    guessNextSpeaker order [] = order.getD 0 "" ∧
    ∀ (msgs : List ChatMessage) (m : ChatMessage),
      guessNextSpeaker order (msgs ++ [m]) =
        match order.findIdx? (fun x => x == m.who) with
        | some i => order.getD ((i + 1) % order.length) ""
        | none => order.getD 0 "" := by
  have hlen : ¬ order.length = 0 := by
    simpa [List.length_eq_zero] using h
  constructor
  · simp [guessNextSpeaker, hlen]
  · intro msgs m
    have hlast : (msgs ++ [m]).getLast? = some m := List.getLast?_concat msgs
    simp only [guessNextSpeaker, hlen, if_false, hlast]
    exact nextSpeaker_eq_find order hlen m.who

/-- Witness for C1 at the default turn order: scenario from the spec, a log
whose last message is by the moderator yields traveler_A. -/
theorem next_speaker_spec_witness :
    guessNextSpeaker DEFAULT_TURN_ORDER
        ([] ++ [{ who := "moderator", content := "welcome", ts := 0 }]) =
      match DEFAULT_TURN_ORDER.findIdx? (fun x => x == "moderator") with
      | some i => DEFAULT_TURN_ORDER.getD ((i + 1) % DEFAULT_TURN_ORDER.length) ""
      | none => DEFAULT_TURN_ORDER.getD 0 "" :=
  (next_speaker_spec DEFAULT_TURN_ORDER (by decide)).2 []
    { who := "moderator", content := "welcome", ts := 0 }

/-- C5: a failing configuration fetch resolves to the fixed fallback with
human roles traveler_B and traveler_D and automated roles traveler_A and
traveler_C, while a successful fetch is used verbatim. -/
theorem config_fallback :
    (loadConfig none).human_travelers = ["traveler_B", "traveler_D"] ∧
    (loadConfig none).ai_travelers = ["traveler_A", "traveler_C"] ∧
    ∀ c : SessionConfig, loadConfig (some c) = c :=
  ⟨by decide, by decide, fun c => rfl⟩

/-- C6 counterexample: a burst of two edits 100 ms apart emits two typing
active notifications, not exactly one. -/
theorem typing_burst_counterexample :
    debounceRun [0, 100] = [(0, true), (100, true), (900, false)] ∧
    ((debounceRun [0, 100]).filter (fun p => p.2)).length ≠ 1 := by
  decide

/-- C6 amended: for a burst of edits at ascending times each strictly within
800 ms of the previous one, every edit emits one typing active notification at
its own time, and exactly one typing inactive notification is emitted, 800 ms
after the last edit of the burst. -/
theorem typing_burst_amended (edits : List Nat) (hne : edits ≠ [])
    (hburst : edits.Chain' (fun a b => a ≤ b ∧ b < a + TYPING_DEBOUNCE_MS)) :
    debounceRun edits
        = edits.map (fun t => (t, true))
          ++ [(edits.getLastD 0 + TYPING_DEBOUNCE_MS, false)] ∧
    (debounceRun edits).filter (fun p => !p.2)
        = [(edits.getLastD 0 + TYPING_DEBOUNCE_MS, false)] := by
  have main : debounceRun edits
      = edits.map (fun t => (t, true))
        ++ [(edits.getLastD 0 + TYPING_DEBOUNCE_MS, false)] := by
    induction edits with
    | nil => exact absurd rfl hne
    | cons t rest ih =>
        cases rest with
        | nil => simp [debounceRun]
        | cons t2 rest2 =>
            have hrel := List.chain'_cons.mp hburst
            have hlt : ¬ (t + TYPING_DEBOUNCE_MS ≤ t2) :=
              Nat.not_le_of_lt hrel.1.2
            have ihv := ih (List.cons_ne_nil t2 rest2) hrel.2
            simp only [debounceRun, hlt, if_false, ihv, List.map_cons,
              List.cons_append, List.getLastD_cons]
  refine ⟨main, ?_⟩
  rw [main, List.filter_append]
  have hmap : (edits.map (fun t => (t, true))).filter
      (fun p : Nat × Bool => !p.2) = [] := by
    induction edits with
    | nil => rfl
    | cons t rest ih2 => simp [List.filter, ih2]
  rw [hmap]
  rfl

/-- Witness for C6 amended at the burst 0, 100, 200. -/
theorem typing_burst_amended_witness :
    debounceRun [0, 100, 200]
        = [0, 100, 200].map (fun t => (t, true))
          ++ [([0, 100, 200].getLastD 0 + TYPING_DEBOUNCE_MS, false)] ∧
    (debounceRun [0, 100, 200]).filter (fun p => !p.2)
        = [([0, 100, 200].getLastD 0 + TYPING_DEBOUNCE_MS, false)] :=
  typing_burst_amended [0, 100, 200] (by decide)
    (by norm_num [List.chain'_cons, TYPING_DEBOUNCE_MS])

/-- C7: a payload that fails to parse as a known event shape, as well as an
event with no data, leaves the whole client state unchanged; the handler is a
total function, so processing never throws. -/
theorem malformed_discarded (st : ClientState) (now : Nat) :
    onmessage st now .malformed = st ∧ onmessage st now .empty = st :=
  ⟨rfl, rfl⟩

/-- C10: the turn engine is total on the empty order: guessNextSpeaker yields
the moderator for every log, and nextSpeaker returns its argument unchanged. -/
theorem empty_order_total :
    (∀ msgs : List ChatMessage, guessNextSpeaker [] msgs = "moderator") ∧
    (∀ after : String, nextSpeaker [] after = after) :=
  ⟨fun _ => rfl, fun _ => rfl⟩

/-- C2: a message event appends exactly one entry with the receipt time to the
end of the log, forces the typing flag of its speaker to false, also when the
previous event was a typing active event for the same speaker, and, from the
active phase, finishes the session exactly when the trimmed content equals the
consensus sentinel; the end marker finishes the session as well. -/
theorem message_event_effects (st : ClientState) (now now₀ : Nat)
    (who content : String) :
    (onmessage st now (.message who content)).msgs
        = st.msgs ++ [{ who := who, content := content, ts := now }] ∧
    recGet (onmessage st now (.message who content)).typingMap who
        = some false ∧
    (st.finished = false →
      ((onmessage st now (.message who content)).finished = true
        ↔ jsTrim content = CONSENSUS_SENTINEL)) ∧
    recGet (onmessage (onmessage st now₀ (.typing who true)) now
        (.message who content)).typingMap who = some false ∧
    (onmessage st now .endMarker).finished = true := by
  refine ⟨rfl, recGet_recSet_self _ _ _, ?_, recGet_recSet_self _ _ _, rfl⟩
  intro hf
  by_cases hc : jsTrim content = CONSENSUS_SENTINEL
  · simp [onmessage, hc]
  · simp [onmessage, hc, hf]

/-- Witness for C2 at a concrete state and message. -/
theorem message_event_effects_witness :
    (onmessage exState 2 (.message "traveler_A" "hello")).msgs
        = exState.msgs
          ++ [{ who := "traveler_A", content := "hello", ts := 2 }] ∧
    recGet (onmessage exState 2 (.message "traveler_A" "hello")).typingMap
        "traveler_A" = some false ∧
    (exState.finished = false →
      ((onmessage exState 2 (.message "traveler_A" "hello")).finished = true
        ↔ jsTrim "hello" = CONSENSUS_SENTINEL)) ∧
    recGet (onmessage (onmessage exState 1 (.typing "traveler_A" true)) 2
        (.message "traveler_A" "hello")).typingMap "traveler_A" = some false ∧
    (onmessage exState 2 .endMarker).finished = true :=
  message_event_effects exState 2 1 "traveler_A" "hello"

/-- C3: the finished phase is absorbing: from a finished state, no payload
whatsoever un-finishes the session, and the submit guard rejects every choice
of role, draft, log and order. -/
theorem finished_absorbing (st : ClientState) (h : st.finished = true)
    (now : Nat) (p : RawPayload) :
    (onmessage st now p).finished = true ∧
    ∀ (role : Option String) (draft : String) (msgs : List ChatMessage)
      (order : List String),
      canSubmit { st with role := role, input := draft, msgs := msgs,
                          turnOrder := order } = false := by
  constructor
  · cases p <;> simp [onmessage, h]
  · intro role draft msgs order
    simp [canSubmit, h]

/-- Witness for C3 at a concrete finished state. -/
theorem finished_absorbing_witness :
    (onmessage exFinished 0 .endMarker).finished = true ∧
    canSubmit { exFinished with role := some "traveler_B", input := "hi",
                                msgs := [], turnOrder := DEFAULT_TURN_ORDER }
      = false :=
  ⟨(finished_absorbing exFinished rfl 0 .endMarker).1,
   (finished_absorbing exFinished rfl 0 .endMarker).2 (some "traveler_B") "hi"
     [] DEFAULT_TURN_ORDER⟩

/-- C4: in a rendered room (truthy session identifier) whose local role, when
set, is a traveler role, and whose role assignment partitions roles (a role is
human exactly when it is not automated), the submit guard passes exactly when
a local role is resolved, that role is in the human partition, the session is
not finished, the computed next speaker equals the role, and the trimmed draft
is non-empty; in particular a whitespace-only draft never passes. -/
theorem can_submit_iff (st : ClientState)
    (hs : truthyOpt st.sessionId = true)
    (hr : st.role.all (fun r => TRAVELER_ROLES.contains r) = true)
    (hpart : st.role.all (fun r =>
        (humanRolesOf st.sessionConfig).contains r
          == !((aiRolesOf st.sessionConfig).contains r)) = true) :
    canSubmit st = true ↔
      ∃ r, st.role = some r ∧
        (humanRolesOf st.sessionConfig).contains r = true ∧
        st.finished = false ∧
        guessNextSpeaker st.turnOrder st.msgs = r ∧
        jsTrim st.input ≠ "" := by
  cases hrole : st.role with
  | none => simp [canSubmit, hrole, truthyOpt]
  | some r =>
      rw [hrole] at hr hpart
      simp only [Option.all_some] at hr hpart
      have hrne : r ≠ "" := by
        intro he
        rw [he] at hr
        exact absurd hr (by decide)
      have hr0 : (r == "") = false := beq_eq_false_iff_ne.mpr hrne
      have hpart' : (humanRolesOf st.sessionConfig).contains r
          = !((aiRolesOf st.sessionConfig).contains r) := eq_of_beq hpart
      have hcs : canSubmit st
          = (truthyStr (jsTrim st.input)
              && (guessNextSpeaker st.turnOrder st.msgs == r)
              && !st.finished
              && (humanRolesOf st.sessionConfig).contains r) := by
        simp only [canSubmit, hrole]
        rw [hs]
        simp only [truthyOpt, truthyStr, hr0, Bool.not_false, Bool.true_and,
          isMyTurn, isSelectedAi, ← hpart']
      rw [hcs]
      simp only [truthyStr, Bool.and_eq_true, Bool.not_eq_true',
        beq_iff_eq, beq_eq_false_iff_ne, hrole, Option.some.injEq]
      constructor
      · rintro ⟨⟨⟨htrim, hguess⟩, hfin⟩, hhuman⟩
        exact ⟨r, rfl, hhuman, hfin, hguess, htrim⟩
      · rintro ⟨r', hr', hhuman, hfin, hguess, htrim⟩
        cases hr'
        exact ⟨⟨⟨htrim, hguess⟩, hfin⟩, hhuman⟩

/-- Witness for C4 at the whitespace-draft scenario: role traveler_B, turn
traveler_B, active phase, blank draft. -/
theorem can_submit_iff_witness :
    canSubmit exBlankDraft = true ↔
      ∃ r, exBlankDraft.role = some r ∧
        (humanRolesOf exBlankDraft.sessionConfig).contains r = true ∧
        exBlankDraft.finished = false ∧
        guessNextSpeaker exBlankDraft.turnOrder exBlankDraft.msgs = r ∧
        jsTrim exBlankDraft.input ≠ "" :=
  can_submit_iff exBlankDraft (by decide) (by decide) (by decide)

/-- C8 counterexample: from the initial state, a single typing event carrying
an identity outside the turn order creates a typing-map key outside the turn
order. -/
theorem typing_key_counterexample :
    typingKeysIn (onmessage exState 0 (.typing "intruder" true)) = false ∧
    ((onmessage exState 0 (.typing "intruder" true)).typingMap.map
        Prod.fst).contains "intruder" = true ∧
    (onmessage exState 0 (.typing "intruder" true)).turnOrder.contains
        "intruder" = false := by
  decide

/-- C8 amended: the handler upserts typing-map keys exactly at the identities
carried by the received events, so provided every received message or typing
event carries an identity in the turn order, every typing-map key stays in
the turn order, which the events never change. -/
theorem typing_keys_amended (st : ClientState) (evs : List (Nat × RawPayload))
    (h0 : typingKeysIn st = true)
    (hevs : evs.all (fun e => whoInOrder st.turnOrder e.2) = true) :
    typingKeysIn (runEvents st evs) = true ∧
    (runEvents st evs).turnOrder = st.turnOrder := by
  induction evs generalizing st with
  | nil => exact ⟨h0, rfl⟩
  | cons e rest ih =>
      simp only [List.all_cons, Bool.and_eq_true] at hevs
      have hstep := typingKeysIn_onmessage st e.1 e.2 h0 hevs.1
      have hto := onmessage_turnOrder st e.1 e.2
      have hrest := ih (onmessage st e.1 e.2) hstep (by rw [hto]; exact hevs.2)
      have hrun : runEvents st (e :: rest)
          = runEvents (onmessage st e.1 e.2) rest := rfl
      rw [hrun]
      exact ⟨hrest.1, hrest.2.trans hto⟩

/-- Witness for C8 amended at a two-event run over the default order. -/
theorem typing_keys_amended_witness :
    typingKeysIn (runEvents exState
        [(0, .typing "moderator" true), (1, .message "traveler_A" "hi")])
      = true ∧
    (runEvents exState
        [(0, .typing "moderator" true),
         (1, .message "traveler_A" "hi")]).turnOrder = exState.turnOrder :=
  typing_keys_amended exState
    [(0, .typing "moderator" true), (1, .message "traveler_A" "hi")]
    (by decide) (by decide)

/-- C9: when the submit guard passes, the submit posts exactly the trimmed
draft tagged with the local role and the session identifier, clears the draft,
and leaves the message log, the typing map, the finished flag and every other
state component unchanged; no local append to the log occurs. -/
theorem submit_effects (st : ClientState) (h : canSubmit st = true) :
    (∃ sid r, st.sessionId = some sid ∧ st.role = some r ∧
      (send st).2
        = some { session_id := sid, who := r, text := jsTrim st.input }) ∧
    (send st).1.input = "" ∧
    (send st).1.msgs = st.msgs ∧
    (send st).1.typingMap = st.typingMap ∧
    (send st).1.finished = st.finished ∧
    (send st).1.sessionId = st.sessionId ∧
    (send st).1.role = st.role ∧
    (send st).1.sessionConfig = st.sessionConfig ∧
    (send st).1.turnOrder = st.turnOrder := by
  have hsend : send st
      = ({ st with input := "" },
          some { session_id := st.sessionId.getD "", who := st.role.getD "",
                 text := jsTrim st.input }) := by
    simp [send, h]
  obtain ⟨sid, hsid⟩ : ∃ sid, st.sessionId = some sid := by
    cases hcase : st.sessionId with
    | none =>
        rw [canSubmit, hcase] at h
        simp [truthyOpt] at h
    | some s => exact ⟨s, rfl⟩
  obtain ⟨r, hrole⟩ : ∃ r, st.role = some r := by
    cases hcase : st.role with
    | none =>
        rw [canSubmit, hcase] at h
        simp [truthyOpt] at h
    | some s => exact ⟨s, rfl⟩
  refine ⟨⟨sid, r, hsid, hrole, ?_⟩, ?_, ?_, ?_, ?_, ?_, ?_, ?_, ?_⟩ <;>
    simp [hsend, hsid, hrole]

/-- Witness for C9 at a concrete submittable state. -/
theorem submit_effects_witness :
    (∃ sid r, exSubmittable.sessionId = some sid ∧
      exSubmittable.role = some r ∧
      (send exSubmittable).2
        = some { session_id := sid, who := r,
                 text := jsTrim exSubmittable.input }) ∧
    (send exSubmittable).1.input = "" ∧
    (send exSubmittable).1.msgs = exSubmittable.msgs ∧
    (send exSubmittable).1.typingMap = exSubmittable.typingMap ∧
    (send exSubmittable).1.finished = exSubmittable.finished ∧
    (send exSubmittable).1.sessionId = exSubmittable.sessionId ∧
    (send exSubmittable).1.role = exSubmittable.role ∧
    (send exSubmittable).1.sessionConfig = exSubmittable.sessionConfig ∧
    (send exSubmittable).1.turnOrder = exSubmittable.turnOrder :=
  submit_effects exSubmittable (by decide)

end Discussion
